import Mathlib

/-!
# Verification of the vibeflows data server core

Shallow embedding of the access-control query rewriting, the versioned agent
registration engine, the cleanup sweeper and the team-membership route of
`data_server` (files `models/mongodb_client.py`, `api/routes.py`,
`config.py`), together with theorems settling the specification claims.

Documents are modelled as association lists from field names to BSON-like
values (strings, arrays of strings, integer timestamps); MongoDB `_id`
values are modelled as strings, so the `_convert_id` normalisation of the
source is the identity here.  Collection reads may fail: a `Store` carries
the list of collection names whose underlying read raises, mirroring the
`PyMongoError` paths of the source.  The `sort` parameter of
`find_documents` (default `None`, supplied by no claim) is not modelled.
-/

namespace DataServer

/-- A BSON-like field value: a string, an array of strings, or an integer
timestamp (`datetime` values are modelled as integers). -/
inductive BVal where
  | s (v : String)
  | arr (vs : List String)
  | int (n : Int)
deriving DecidableEq, Repr

/-- A document is an association list from field names to values; the first
binding of a key is the effective one. -/
abbrev Doc := List (String × BVal)

/-- First value bound to `key` in `d`, if any. -/
def Doc.getField (d : Doc) (key : String) : Option BVal :=
  match d.find? (fun p => p.1 = key) with
  | some p => some p.2
  | none => none

/-- A condition on a single field: equality (`{"f": v}`), `$in` over a list
of ids, or `$lt` against an integer bound. -/
inductive Cond where
  | ceq (v : BVal)
  | cin (vs : List String)
  | clt (n : Int)
deriving DecidableEq, Repr

/-- A top-level MongoDB query as the source builds them: an association
list of per-field conditions plus an optional `$or` entry whose value is a
list of conjunctive sub-queries.  Python dict assignment
(`query["$or"] = ...`, `query["chat_id"] = ...`) overwrites the entry. -/
structure Query where
  fields : List (String × Cond)
  orq : Option (List (List (String × Cond)))
deriving DecidableEq, Repr

/-- The query `{}`. -/
def Query.empty : Query := ⟨[], none⟩

/-- MongoDB field-condition semantics.  Equality against a scalar also
matches an array field containing the scalar; a missing field matches no
condition used by the source. -/
def matchCond (d : Doc) (key : String) (c : Cond) : Bool :=
  match c, d.getField key with
  | .ceq v, some w =>
      (w = v) ||
      (match w, v with
       | .arr vs, .s u => vs.contains u
       | _, _ => false)
  | .cin vs, some (.s u) => vs.contains u
  | .cin vs, some (.arr us) => us.any vs.contains
  | .clt n, some (.int m) => m < n
  | _, _ => false

/-- A conjunctive sub-query (all field conditions hold). -/
def matchFields (d : Doc) (fs : List (String × Cond)) : Bool :=
  fs.all (fun p => matchCond d p.1 p.2)

/-- Top-level query semantics: all field conditions hold, and when a `$or`
entry is present at least one of its sub-queries holds. -/
def matchQuery (q : Query) (d : Doc) : Bool :=
  matchFields d q.fields &&
  (match q.orq with
   | none => true
   | some qs => qs.any (matchFields d))

/-- The seven collections of `_initialize_collections`. -/
inductive Coll where
  | users | chats | sessions | messages | workflows | agents | teams
deriving DecidableEq, Repr

/-- Collection name string, as used for dictionary keys in the source. -/
def Coll.name : Coll → String
  | .users => "users"
  | .chats => "chats"
  | .sessions => "sessions"
  | .messages => "messages"
  | .workflows => "workflows"
  | .agents => "agents"
  | .teams => "teams"

/-- The database state: one document list per collection, plus the names of
the collections whose underlying read currently raises (modelling the
`PyMongoError` failure paths). -/
structure Store where
  users : List Doc
  chats : List Doc
  sessions : List Doc
  messages : List Doc
  workflows : List Doc
  agents : List Doc
  teams : List Doc
  failedReads : List String
deriving DecidableEq, Repr

/-- Decidable equality of fallible results, for evaluating the model on
concrete inputs. -/
instance {ε α : Type} [DecidableEq ε] [DecidableEq α] :
    DecidableEq (Except ε α) := fun a b =>
  match a, b with
  | .ok x, .ok y =>
      if h : x = y then .isTrue (by rw [h])
      else .isFalse (fun hh => h (by cases hh; rfl))
  | .error e, .error f =>
      if h : e = f then .isTrue (by rw [h])
      else .isFalse (fun hh => h (by cases hh; rfl))
  | .ok _, .error _ => .isFalse (fun hh => by cases hh)
  | .error _, .ok _ => .isFalse (fun hh => by cases hh)

/-- The documents of a collection. -/
def Store.coll (st : Store) : Coll → List Doc
  | .users => st.users
  | .chats => st.chats
  | .sessions => st.sessions
  | .messages => st.messages
  | .workflows => st.workflows
  | .agents => st.agents
  | .teams => st.teams

/-- Reading a collection: raises (returns `.error`) exactly when the
collection is listed in `failedReads`. -/
def Store.read (st : Store) (c : Coll) : Except String (List Doc) :=
  if st.failedReads.contains c.name then .error "read failed"
  else .ok (st.coll c)

/-- Model of `_get_user_teams`: ids of the teams matching
`{"$or": [{"owner_id": user_id}, {"users": user_id}]}`, projected to `_id`.
Any read error is caught and degrades to the empty list (the source logs
and returns `[]`; it never raises to its caller). -/
def getUserTeams (st : Store) (user_id : String) : List String :=
  match st.read .teams with
  | .error _ => []
  | .ok teams =>
      (teams.filter (fun t =>
        matchQuery ⟨[], some [[("owner_id", .ceq (.s user_id))],
                              [("users", .ceq (.s user_id))]]⟩ t)).filterMap
        (fun t => match t.getField "_id" with
          | some (.s i) => some i
          | _ => none)

/-- Model of `_get_user_chat_ids`: resolves the team ids, then ids of the chats
matching the owner / access-list / team `$or` query; a chat-read error is
caught and degrades to the empty list. -/
def getUserChatIds (st : Store) (user_id : String) : List String :=
  match st.read .chats with
  | .error _ => []
  | .ok chats =>
      let team_ids := getUserTeams st user_id
      (chats.filter (fun c =>
        matchQuery ⟨[], some [[("user_id", .ceq (.s user_id))],
                              [("access_users", .ceq (.s user_id))],
                              [("team_id", .cin team_ids)]]⟩ c)).filterMap
        (fun c => match c.getField "_id" with
          | some (.s i) => some i
          | _ => none)

/-- Overwrite (or add) the binding of `key` in an association list,
modelling Python dict assignment. -/
def assocSet (fs : List (String × Cond)) (key : String) (c : Cond) :
    List (String × Cond) :=
  if fs.any (fun p => p.1 = key) then
    fs.map (fun p => if p.1 = key then (key, c) else p)
  else fs ++ [(key, c)]

/-- The access-control augmentation of `find_documents` (lines 199-217):
for `chats` and for `workflows`/`agents` the `$or` entry of the query is
assigned (overwriting any caller-supplied `$or`); for `messages`/`sessions`
the `chat_id` entry is assigned; `users`/`teams` are left unfiltered. -/
def augmentQuery (st : Store) (c : Coll) (q : Query) (user_id : String) :
    Query :=
  match c with
  | .chats =>
      { q with orq := some [[("user_id", .ceq (.s user_id))],
                            [("access_users", .ceq (.s user_id))],
                            [("team_id", .cin (getUserTeams st user_id))]] }
  | .workflows | .agents =>
      { q with orq := some [[("user_id", .ceq (.s user_id))],
                            [("team_id", .cin (getUserTeams st user_id))]] }
  | .messages | .sessions =>
      { q with fields :=
          assocSet q.fields "chat_id" (.cin (getUserChatIds st user_id)) }
  | .users | .teams => q

/-- The effective query of a `find_documents` call: the guard
`if user_id and user_id != "admin"` applies the augmentation only for a
present, non-empty actor id different from the literal string `"admin"`. -/
def effectiveQuery (st : Store) (c : Coll) (q : Query)
    (user_id : Option String) : Query :=
  match user_id with
  | some u => if u ≠ "" && u ≠ "admin" then augmentQuery st c q u else q
  | none => q

/-- An unrestricted find: read the collection, keep the documents matching
the query, then apply `skip` and `limit` (lines 219-225 of the source with
no access control). -/
def rawFind (st : Store) (c : Coll) (q : Query) (limit skip : Nat) :
    Except String (List Doc) :=
  match st.read c with
  | .error e => .error e
  | .ok docs => .ok (((docs.filter (matchQuery q)).drop skip).take limit)

/-- Model of `find_documents`: augment the query by the access-control rules, then
read, filter, skip and limit.  The source defaults are `limit = 100`,
`skip = 0`. -/
def findDocuments (st : Store) (c : Coll) (q : Query)
    (user_id : Option String) (limit skip : Nat) :
    Except String (List Doc) :=
  let q := effectiveQuery st c q user_id
  match st.read c with
  | .error e => .error e
  | .ok docs => .ok (((docs.filter (matchQuery q)).drop skip).take limit)

/-- Definition `ADMIN_ID = os.getenv("ADMIN_ID", "admin")` from `config.py`: the
configured admin sentinel, defaulting to `"admin"` when the environment
variable is unset. -/
def ADMIN_ID (env : Option String) : String := env.getD "admin"

/-! ## Versioned registration engine (`register_agent`) -/

/-- A scalar configuration value: string, number (as exact rational), or
boolean. -/
inductive JPrim where
  | pstr (v : String)
  | pnum (q : Rat)
  | pbool (b : Bool)
deriving DecidableEq, Repr

/-- A JSON-like configuration value: a scalar, or a one-level-deep object
of scalars (every nested object the program itself holds — the blocks of
`GEMINI_CONFIG` — has scalar leaves only). -/
inductive JVal where
  | jstr (v : String)
  | jnum (q : Rat)
  | jbool (b : Bool)
  | jobj (fields : List (String × JPrim))
deriving DecidableEq, Repr

/-- The list `VALID_AGENT_TYPES` from `config.py` (the registration-time enum,
including `gemini`). -/
def VALID_AGENT_TYPES : List String :=
  ["workflow_creator", "problem_understanding", "task_executor",
   "code_generator", "data_processor", "system", "gemini"]

/-- The dict `DEFAULT_AGENT_CONFIG` from `config.py`. -/
def DEFAULT_AGENT_CONFIG : List (String × JVal) :=
  [("model", .jstr "gpt-4"),
   ("temperature", .jnum 0.7),
   ("max_tokens", .jnum 2000)]

/-- The dict `GEMINI_CONFIG` from `config.py`. -/
def GEMINI_CONFIG : List (String × JVal) :=
  [("model", .jstr "gemini-2.5-pro-preview-05-06"),
   ("temperature", .jnum 0.7),
   ("max_tokens", .jnum 4000),
   ("top_p", .jnum 0.95),
   ("top_k", .jnum 40),
   ("safety_settings", .jobj
     [("harassment", .pstr "block_none"),
      ("hate_speech", .pstr "block_none"),
      ("sexually_explicit", .pstr "block_none"),
      ("dangerous_content", .pstr "block_none")]),
   ("generation_config", .jobj
     [("temperature", .pnum 0.7),
      ("top_p", .pnum 0.95),
      ("top_k", .pnum 40),
      ("max_output_tokens", .pnum 4000),
      ("candidate_count", .pnum 1)]),
   ("model_config", .jobj
     [("version", .pstr "gemini-2.5-pro-preview-05-06"),
      ("type", .pstr "pro"),
      ("preview", .pbool true)])]

/-- The lookup `AGENT_CONFIGS.get(agent_type, AGENT_CONFIGS["default"])` where
`AGENT_CONFIGS = {"gemini": GEMINI_CONFIG, "default": DEFAULT_AGENT_CONFIG}`. -/
def agentDefaultConfig (agent_type : String) : List (String × JVal) :=
  if agent_type = "gemini" then GEMINI_CONFIG
  else if agent_type = "default" then DEFAULT_AGENT_CONFIG
  else DEFAULT_AGENT_CONFIG

/-- Python `{**d, **c}`: keys of `d` keep their place with values
overridden by `c` where both bind a key; keys only in `c` are appended. -/
def dictMerge (d c : List (String × JVal)) : List (String × JVal) :=
  (d.map (fun p =>
    match c.find? (fun q => q.1 = p.1) with
    | some q => (p.1, q.2)
    | none => p)) ++
  c.filter (fun q => ¬ d.any (fun p => p.1 = q.1))

/-- Split a character list at every dot (so `n` dots give `n + 1` groups,
empty groups included). -/
def splitDots : List Char → List (List Char)
  | [] => [[]]
  | c :: rest =>
      match splitDots rest with
      | [] => [[c]]
      | g :: gs => if c = '.' then [] :: g :: gs else (c :: g) :: gs

/-- The check `re.match(r^\d+\.\d+\.\d+$, version)`: exactly three nonempty runs of
digits separated by dots. -/
def isSemVer (v : String) : Bool :=
  match splitDots v.data with
  | [a, b, c] =>
      !a.isEmpty && a.all Char.isDigit &&
      !b.isEmpty && b.all Char.isDigit &&
      !c.isEmpty && c.all Char.isDigit
  | _ => false

/-- A stored agent document, with the fields `register_agent` reads and
writes; `oid` models the MongoDB `_id`. -/
structure AgentDoc where
  oid : Nat
  user_id : String
  name : String
  agentType : String
  version : String
  config : List (String × JVal)
  system_message : String
  src : String
  command : String
  description : Option String
  capabilities : List String
  metadata : List (String × JVal)
  status : String
  last_active : Int
  created_at : Int
  updated_at : Int
deriving DecidableEq, Repr

/-- Errors raised by `register_agent`: `ValueError` for validation
failures, `PyMongoError` for store failures. -/
inductive RegError where
  | validationError (msg : String)
  | storeError (msg : String)
deriving DecidableEq, Repr

/-- Python truthiness of `o or d` for an optional list-like value: `None`
and the empty container are both falsy and yield the default. -/
def optListOr {α : Type} (o : Option (List α)) (d : List α) : List α :=
  match o with
  | none => d
  | some [] => d
  | some (x :: xs) => x :: xs

/-- Replace the first element satisfying `p` by `f` of it. -/
def updateFirst {α : Type} (p : α → Bool) (f : α → α) : List α → List α
  | [] => []
  | x :: xs => if p x then f x :: xs else x :: updateFirst p f xs

/-- The identity lookup of `register_agent`: exact match on
(`user_id`, `name`, `type`). -/
def agentKeyMatch (user_id name agent_type : String) (a : AgentDoc) : Bool :=
  a.user_id == user_id && a.name == name && a.agentType == agent_type

/-- The document built for the insert branch of `register_agent` (`status`
defaults to `active`, falsy `capabilities`/`metadata` default to empty). -/
def insertedAgent (freshId : Nat) (now : Int)
    (user_id name agent_type version : String)
    (merged_config : List (String × JVal))
    (system_message src command : String) (description : Option String)
    (capabilities : Option (List String))
    (metadata : Option (List (String × JVal))) : AgentDoc :=
  { oid := freshId
    user_id := user_id
    name := name
    agentType := agent_type
    version := version
    config := merged_config
    system_message := system_message
    src := src
    command := command
    description := description
    capabilities := optListOr capabilities []
    metadata := optListOr metadata []
    status := "active"
    last_active := now
    created_at := now
    updated_at := now }

/-- The `$set` of the update branch of `register_agent`: overwrite
`version`, `config`, `system_message`, `src`, `command`, `description`,
stamp `last_active`/`updated_at`, and keep the stored
`capabilities`/`metadata` when the caller's values are falsy. -/
def updatedAgent (ex : AgentDoc) (now : Int) (version : String)
    (merged_config : List (String × JVal))
    (system_message src command : String) (description : Option String)
    (capabilities : Option (List String))
    (metadata : Option (List (String × JVal))) : AgentDoc :=
  { ex with
    version := version
    config := merged_config
    system_message := system_message
    src := src
    command := command
    description := description
    capabilities := optListOr capabilities ex.capabilities
    metadata := optListOr metadata ex.metadata
    last_active := now
    updated_at := now }

/-- Model of `register_agent` on the agents collection (modelled as typed agent
documents): validate the type enum and the semantic version, merge the
per-type default configuration under the caller's `config`, then update
the existing agent with the same (`user_id`, `name`, `type`) key —
preserving stored `capabilities`/`metadata` when the caller's values are
falsy — or insert a fresh document.  `freshId` models the generated `_id`
and `now` the current time; an update that changes nothing has
`modified_count == 0` and raises `PyMongoError`. -/
def registerAgent (agents : List AgentDoc) (freshId : Nat) (now : Int)
    (user_id name agent_type version : String)
    (config : List (String × JVal)) (system_message src command : String)
    (description : Option String) (capabilities : Option (List String))
    (metadata : Option (List (String × JVal))) :
    Except RegError (String × List AgentDoc) :=
  if ¬ VALID_AGENT_TYPES.contains agent_type then
    .error (.validationError "Invalid agent type")
  else if ¬ isSemVer version then
    .error (.validationError
      "Version must be in semantic versioning format (e.g. 1.0.0)")
  else
    let merged_config := dictMerge (agentDefaultConfig agent_type) config
    match agents.find? (agentKeyMatch user_id name agent_type) with
    | some existing =>
        let updated : AgentDoc :=
          updatedAgent existing now version merged_config system_message
            src command description capabilities metadata
        if updated = existing then
          .error (.storeError "Failed to update existing agent")
        else
          .ok (toString existing.oid,
               updateFirst (fun a => a.oid == existing.oid)
                 (fun _ => updated) agents)
    | none =>
        .ok (toString freshId,
             agents ++ [insertedAgent freshId now user_id name agent_type
               version merged_config system_message src command description
               capabilities metadata])

/-! ## Cleanup sweeper and team-member removal -/

/-- Replace the documents of one collection. -/
def setColl (st : Store) (c : Coll) (docs : List Doc) : Store :=
  match c with
  | .users => { st with users := docs }
  | .chats => { st with chats := docs }
  | .sessions => { st with sessions := docs }
  | .messages => { st with messages := docs }
  | .workflows => { st with workflows := docs }
  | .agents => { st with agents := docs }
  | .teams => { st with teams := docs }

/-- The collections in the iteration order of `_initialize_collections`. -/
def allColls : List Coll :=
  [.users, .chats, .sessions, .messages, .workflows, .agents, .teams]

/-- Model of `cleanup_old_data`: with `cutoff = now - cut_off_time` days, run
`delete_many({"created_at": {"$lt": cutoff}})` on every collection in
order; a failing collection aborts the remaining sweep (times are integer
seconds, one day = 86400). -/
def cleanupOldData (st : Store) (now : Int) (cutOffDays : Nat) :
    Except String Store :=
  let cutoff : Int := now - (cutOffDays : Int) * 86400
  allColls.foldlM
    (fun s c =>
      if s.failedReads.contains c.name then .error "delete failed"
      else .ok (setColl s c
        ((s.coll c).filter
          (fun d => !(matchCond d "created_at" (.clt cutoff))))))
    st

/-- HTTP-level errors of the route layer, by status code. -/
inductive HttpError where
  | notFound (msg : String)
  | forbidden (msg : String)
  | badRequest (msg : String)
  | internal (msg : String)
deriving DecidableEq, Repr

/-- MongoDB `$pull` of one value from the `users` array field of a team document. -/
def pullFromUsers (t : Doc) (m : String) : Doc :=
  t.map (fun p =>
    if p.1 = "users" then
      match p.2 with
      | .arr ms => ("users", BVal.arr (ms.filter (fun x => x ≠ m)))
      | v => ("users", v)
    else p)

/-- The `DELETE /teams/{team_id}/users/{member_id}` handler: look the team
up by `_id`; only the literal actor `"admin"` or the owner may remove;
removing the owner is rejected; then `$pull` the member from `users`,
reporting `modified_count == 0` (member absent, or `users` missing) as a
400 error.  A `$pull` on a non-array `users` field is a store error. -/
def removeTeamMember (st : Store) (team_id member_id user_id : String) :
    Except HttpError Store :=
  match st.read .teams with
  | .error e => .error (.internal e)
  | .ok teams =>
    match teams.find? (fun t => t.getField "_id" == some (.s team_id)) with
    | none => .error (.notFound "Team not found")
    | some team =>
      match team.getField "owner_id" with
      | none => .error (.internal "KeyError: owner_id")
      | some owner =>
        if user_id != "admin" && BVal.s user_id != owner then
          .error (.forbidden "Only team owner can remove members")
        else if BVal.s member_id == owner then
          .error (.badRequest "Cannot remove team owner")
        else
          match team.getField "users" with
          | some (.arr ms) =>
              if ms.contains member_id then
                .ok (setColl st .teams
                  (updateFirst
                    (fun t => t.getField "_id" == some (.s team_id))
                    (fun t => pullFromUsers t member_id) st.teams))
              else .error (.badRequest "User not in team or failed to remove")
          | none => .error (.badRequest "User not in team or failed to remove")
          | some _ => .error (.internal "cannot apply pull to a non-array value")

/-! ## Specification-side definitions

The following definitions follow the wording of the specification (not the
source); theorems compare them with the source-derived definitions above. -/

/-- Spec wording: the set of team ids whose `owner_id` is the actor or
whose `users` set contains the actor. -/
def teamsForSpec (st : Store) (actor : String) : List String :=
  (st.teams.filter (fun t =>
    (t.getField "owner_id" == some (.s actor)) ||
    (match t.getField "users" with
     | some (.arr us) => us.contains actor
     | _ => false))).filterMap
    (fun t => match t.getField "_id" with
      | some (.s i) => some i
      | _ => none)

/-- Spec wording: a chat is visible to the actor when the actor owns it,
is in its `access_users` allow-list, or belongs to its team. -/
def chatVisibleSpec (st : Store) (actor : String) (c : Doc) : Bool :=
  (c.getField "user_id" == some (.s actor)) ||
  (match c.getField "access_users" with
   | some (.arr us) => us.contains actor
   | _ => false) ||
  (match c.getField "team_id" with
   | some (.s t) => (teamsForSpec st actor).contains t
   | _ => false)

/-- The documents of the collection selected by the effective query of a
`find_documents` call — its result set before the `skip`/`limit` page is
cut out of it. -/
def findResultSet (st : Store) (c : Coll) (q : Query) (u : Option String) :
    List Doc :=
  (st.coll c).filter (matchQuery (effectiveQuery st c q u))

/-- A field that is absent or holds a scalar string. -/
def fieldIsStr (d : Doc) (k : String) : Bool :=
  match d.getField k with
  | some (.s _) => true
  | none => true
  | _ => false

/-- A field that is absent or holds an array of strings. -/
def fieldIsArr (d : Doc) (k : String) : Bool :=
  match d.getField k with
  | some (.arr _) => true
  | none => true
  | _ => false

/-- A chat document of the shape the schemas declare: scalar `user_id` and
`team_id`, array `access_users`. -/
def WFChat (c : Doc) : Bool :=
  fieldIsStr c "user_id" && fieldIsArr c "access_users" &&
  fieldIsStr c "team_id"

/-- A team document of the shape the schemas declare: scalar `owner_id`,
array `users`. -/
def WFTeam (t : Doc) : Bool :=
  fieldIsStr t "owner_id" && fieldIsArr t "users"

/-- The base query used by claims that widen instead of narrowing: queries
carrying no entry that the access-control augmentation overwrites (`$or`
for chats/workflows/agents, `chat_id` for messages/sessions). -/
def noOverwrittenKey (c : Coll) (q : Query) : Bool :=
  match c with
  | .chats | .workflows | .agents => q.orq == none
  | .messages | .sessions => q.fields.all (fun p => p.1 ≠ "chat_id")
  | .users | .teams => true

/-! ## Concrete stores for counterexamples and witnesses -/

/-- An empty store with one chat owned by `alice`. -/
def stOneChat : Store :=
  { users := [], chats := [[("_id", .s "c1"), ("user_id", .s "alice")]],
    sessions := [], messages := [], workflows := [], agents := [],
    teams := [], failedReads := [] }

/-- A second copy for a different claim. -/
def stOneChatB : Store :=
  { users := [], chats := [[("_id", .s "c1"), ("user_id", .s "alice")]],
    sessions := [], messages := [], workflows := [], agents := [],
    teams := [], failedReads := [] }

/-- A store of 101 distinct chats, all owned by `alice`. -/
def stManyChats : Store :=
  { users := [],
    chats := (List.range 101).map
      (fun i => [("_id", BVal.int (i : Int)), ("user_id", BVal.s "alice")]),
    sessions := [], messages := [], workflows := [], agents := [],
    teams := [], failedReads := [] }

/-- The last of the 101 chats of `stManyChats`. -/
def lastChat : Doc := [("_id", BVal.int 100), ("user_id", BVal.s "alice")]

/-- A caller-supplied base query carrying its own `$or` predicate. -/
def qOrBob : Query := ⟨[], some [[("user_id", .ceq (.s "bob"))]]⟩

/-- A store with two chats, one owned by `alice` and one by `bob`. -/
def stTwoChats : Store :=
  { users := [],
    chats := [[("_id", .s "c1"), ("user_id", .s "alice")],
              [("_id", .s "c2"), ("user_id", .s "bob")]],
    sessions := [], messages := [], workflows := [], agents := [],
    teams := [], failedReads := [] }

/-- A store with one team owned by `alice` with member `bob`, whose teams
read fails. -/
def stTeamsDown : Store :=
  { users := [], chats := [], sessions := [], messages := [],
    workflows := [], agents := [],
    teams := [[("_id", .s "t1"), ("owner_id", .s "alice"),
               ("users", .arr ["bob"])]],
    failedReads := ["teams"] }

/-- The same store with a healthy teams read. -/
def stTeamsOk : Store :=
  { users := [], chats := [], sessions := [], messages := [],
    workflows := [], agents := [],
    teams := [[("_id", .s "t1"), ("owner_id", .s "alice"),
               ("users", .arr ["bob"])]],
    failedReads := [] }

/-- A store with one chat created at time 0 and one at time 100. -/
def stCleanup : Store :=
  { users := [],
    chats := [[("created_at", BVal.int 0)], [("created_at", BVal.int 100)]],
    sessions := [], messages := [], workflows := [], agents := [],
    teams := [], failedReads := [] }

/-! ## Helper lemmas -/

/-- An `assocSet` on a key no binding mentions just appends the binding. -/
theorem assocSet_of_fresh (fs : List (String × Cond)) (k : String)
    (c0 : Cond) (h : ∀ p ∈ fs, p.1 ≠ k) :
    assocSet fs k c0 = fs ++ [(k, c0)] := by
  unfold assocSet
  rw [if_neg]
  simp only [List.any_eq_true, decide_eq_true_eq, not_exists, not_and]
  exact h

/-- A filter whose (negated) test holds nowhere removes everything. -/
theorem filter_not_of_all_true {α : Type} (p : α → Bool) (l : List α)
    (h : ∀ a ∈ l, p a = true) : l.filter (fun a => !(p a)) = [] := by
  induction l with
  | nil => rfl
  | cons x xs ih =>
      have hx := h x (List.mem_cons_self x xs)
      simp [List.filter_cons, hx, ih (fun a ha => h a (List.mem_cons_of_mem x ha))]

/-- A filter whose (negated) test holds everywhere removes nothing. -/
theorem filter_not_of_all_false {α : Type} (p : α → Bool) (l : List α)
    (h : ∀ a ∈ l, p a = false) : l.filter (fun a => !(p a)) = l := by
  induction l with
  | nil => rfl
  | cons x xs ih =>
      have hx := h x (List.mem_cons_self x xs)
      simp [List.filter_cons, hx, ih (fun a ha => h a (List.mem_cons_of_mem x ha))]

/-- A `find?` skips a prefix it finds nothing in. -/
theorem find?_append_none {α : Type} (p : α → Bool) (l1 l2 : List α)
    (h : l1.find? p = none) : (l1 ++ l2).find? p = l2.find? p := by
  induction l1 with
  | nil => rfl
  | cons x xs ih =>
      rw [List.find?_cons] at h
      rcases hx : p x with _ | _
      · rw [List.cons_append, List.find?_cons, hx]
        exact ih (by rwa [hx] at h)
      · rw [hx] at h; cases h

/-- An `updateFirst` walks past an element failing the test. -/
theorem updateFirst_cons_neg {α : Type} (p : α → Bool) (f : α → α)
    (x : α) (xs : List α) (h : p x = false) :
    updateFirst p f (x :: xs) = x :: updateFirst p f xs := by
  rw [show updateFirst p f (x :: xs)
      = if p x = true then f x :: xs else x :: updateFirst p f xs from rfl]
  rw [if_neg (by simp [h])]

/-- An `updateFirst` skips a prefix in which nothing satisfies the test. -/
theorem updateFirst_append_left {α : Type} (p : α → Bool) (f : α → α)
    (l1 l2 : List α) (h : ∀ x ∈ l1, p x = false) :
    updateFirst p f (l1 ++ l2) = l1 ++ updateFirst p f l2 := by
  induction l1 with
  | nil => rfl
  | cons x xs ih =>
      rw [List.cons_append,
        updateFirst_cons_neg p f x (xs ++ l2) (h x (List.mem_cons_self x xs)),
        ih (fun a ha => h a (List.mem_cons_of_mem x ha)), List.cons_append]

/-- The insert branch of `registerAgent`: valid inputs and no existing
agent with the key append the freshly built document. -/
theorem registerAgent_insert_eq (agents : List AgentDoc) (freshId : Nat)
    (now : Int) (user_id name agent_type version : String)
    (config : List (String × JVal)) (system_message src command : String)
    (description : Option String) (capabilities : Option (List String))
    (metadata : Option (List (String × JVal)))
    (h1 : agent_type ∈ VALID_AGENT_TYPES) (h2 : isSemVer version = true)
    (h3 : agents.find? (agentKeyMatch user_id name agent_type) = none) :
    registerAgent agents freshId now user_id name agent_type version config
        system_message src command description capabilities metadata
      = .ok (toString freshId,
          agents ++ [insertedAgent freshId now user_id name agent_type
            version (dictMerge (agentDefaultConfig agent_type) config)
            system_message src command description capabilities metadata])
    := by
  simp [registerAgent, h1, h2, h3]

/-- The update branch of `registerAgent`: valid inputs, an existing agent
with the key, and a changing `$set` replace that agent in place and return
its id. -/
theorem registerAgent_update_eq (agents : List AgentDoc) (freshId : Nat)
    (now : Int) (user_id name agent_type version : String)
    (config : List (String × JVal)) (system_message src command : String)
    (description : Option String) (capabilities : Option (List String))
    (metadata : Option (List (String × JVal))) (ex : AgentDoc)
    (h1 : agent_type ∈ VALID_AGENT_TYPES) (h2 : isSemVer version = true)
    (h3 : agents.find? (agentKeyMatch user_id name agent_type) = some ex)
    (h4 : updatedAgent ex now version
        (dictMerge (agentDefaultConfig agent_type) config) system_message
        src command description capabilities metadata ≠ ex) :
    registerAgent agents freshId now user_id name agent_type version config
        system_message src command description capabilities metadata
      = .ok (toString ex.oid,
          updateFirst (fun a => a.oid == ex.oid)
            (fun _ => updatedAgent ex now version
              (dictMerge (agentDefaultConfig agent_type) config)
              system_message src command description capabilities metadata)
            agents) := by
  simp [registerAgent, h1, h2, h3, h4]

/-- Boolean equality of string values reduces to string equality. -/
theorem bval_s_beq (a b : String) :
    (BVal.s a == BVal.s b) = decide (a = b) := by
  by_cases h : a = b <;> simp [h]

/-- On a well-formed team document, the `$or` query of `_get_user_teams`
agrees with the specification predicate (owner, or listed in `users`). -/
theorem team_match_eq_spec (u : String) (t : Doc) (hwf : WFTeam t = true) :
    matchQuery ⟨[], some [[("owner_id", .ceq (.s u))],
                          [("users", .ceq (.s u))]]⟩ t
      = ((t.getField "owner_id" == some (.s u)) ||
         (match t.getField "users" with
          | some (.arr us) => us.contains u
          | _ => false)) := by
  unfold WFTeam fieldIsStr fieldIsArr at hwf
  rw [Bool.and_eq_true] at hwf
  unfold matchQuery matchFields
  simp only [List.all_nil, List.any_cons, List.any_nil, List.all_cons,
    Bool.true_and, Bool.or_false, Bool.and_true]
  rcases hov : t.getField "owner_id" with _ | v
  · rcases huv : t.getField "users" with _ | w
    · simp [matchCond, hov, huv]
    · cases w
      · rw [huv] at hwf; simp at hwf
      · simp [matchCond, hov, huv]
      · rw [huv] at hwf; simp at hwf
  · cases v
    · rcases huv : t.getField "users" with _ | w
      · simp [matchCond, hov, huv, bval_s_beq]
      · cases w
        · rw [huv] at hwf; simp at hwf
        · simp [matchCond, hov, huv, bval_s_beq]
        · rw [huv] at hwf; simp at hwf
    · rw [hov] at hwf; simp at hwf
    · rw [hov] at hwf; simp at hwf

/-- On a healthy teams read over well-formed team documents,
`_get_user_teams` computes exactly the specification-side team set. -/
theorem getUserTeams_eq_spec (st : Store) (u : String)
    (hok : st.failedReads.contains "teams" = false)
    (hwf : ∀ t ∈ st.teams, WFTeam t = true) :
    getUserTeams st u = teamsForSpec st u := by
  unfold getUserTeams teamsForSpec
  rw [show st.read .teams = if st.failedReads.contains "teams"
      then .error "read failed" else .ok st.teams from rfl, hok]
  simp only [if_neg Bool.false_ne_true]
  rw [List.filter_congr (fun t ht => team_match_eq_spec u t (hwf t ht))]

/-- Equality against a scalar string on a string-shaped field is plain
field equality. -/
theorem ceq_s_match_of_str (c : Doc) (k a : String)
    (h : fieldIsStr c k = true) :
    matchCond c k (.ceq (.s a)) = (c.getField k == some (.s a)) := by
  unfold fieldIsStr at h
  unfold matchCond
  rcases hv : c.getField k with _ | v
  · simp
  · rw [hv] at h
    cases v
    · simp [bval_s_beq]
    · simp at h
    · simp at h

/-- Equality against a scalar string on an array-shaped field is
containment. -/
theorem ceq_s_match_of_arr (c : Doc) (k a : String)
    (h : fieldIsArr c k = true) :
    matchCond c k (.ceq (.s a))
      = (match c.getField k with
         | some (.arr us) => us.contains a
         | _ => false) := by
  unfold fieldIsArr at h
  unfold matchCond
  rcases hv : c.getField k with _ | v
  · simp
  · rw [hv] at h
    cases v
    · simp at h
    · simp
    · simp at h

/-- A `$in` condition on a string-shaped field is containment of the
field value. -/
theorem cin_match_of_str (c : Doc) (k : String) (ids : List String)
    (h : fieldIsStr c k = true) :
    matchCond c k (.cin ids)
      = (match c.getField k with
         | some (.s t) => ids.contains t
         | _ => false) := by
  unfold fieldIsStr at h
  unfold matchCond
  rcases hv : c.getField k with _ | v
  · simp
  · rw [hv] at h
    cases v
    · simp
    · simp at h
    · simp at h

/-- On a well-formed chat over a healthy, well-formed teams collection,
the augmented empty query of `find_documents("chats", ...)` selects the
chat exactly when the specification visibility predicate holds. -/
theorem chat_match_eq_visible (st : Store) (a : String) (c : Doc)
    (hwf : WFChat c = true)
    (hok : st.failedReads.contains "teams" = false)
    (hwfT : ∀ t ∈ st.teams, WFTeam t = true) :
    matchQuery (augmentQuery st .chats Query.empty a) c
      = chatVisibleSpec st a c := by
  unfold WFChat at hwf
  rw [Bool.and_eq_true, Bool.and_eq_true] at hwf
  obtain ⟨⟨h1, h2⟩, h3⟩ := hwf
  rw [show augmentQuery st .chats Query.empty a
      = ⟨[], some [[("user_id", .ceq (.s a))],
                   [("access_users", .ceq (.s a))],
                   [("team_id", .cin (getUserTeams st a))]]⟩ from rfl]
  unfold matchQuery chatVisibleSpec
  simp only [matchFields, List.all_nil, List.any_cons, List.any_nil,
    List.all_cons, Bool.true_and, Bool.and_true, Bool.or_false]
  rw [ceq_s_match_of_str c "user_id" a h1,
    ceq_s_match_of_arr c "access_users" a h2,
    cin_match_of_str c "team_id" (getUserTeams st a) h3,
    getUserTeams_eq_spec st a hok hwfT, Bool.or_assoc]

/-- With at most one test-satisfying element, `updateFirst` is a pointwise
map. -/
theorem updateFirst_eq_map {α : Type} (p : α → Bool) (f : α → α)
    (l : List α) (h : (l.filter p).length ≤ 1) :
    updateFirst p f l = l.map (fun x => if p x then f x else x) := by
  induction l with
  | nil => rfl
  | cons x xs ih =>
      rcases hx : p x with _ | _
      · rw [updateFirst_cons_neg p f x xs hx, List.map_cons, if_neg (by simp [hx])]
        rw [List.filter_cons_of_neg (by simp [hx])] at h
        rw [ih h]
      · rw [List.filter_cons_of_pos (by simp [hx])] at h
        have htail : ∀ y ∈ xs, p y = false := by
          have : (xs.filter p).length = 0 := by
            rw [List.length_cons] at h; omega
          intro y hy
          by_contra hc
          have hpy : p y = true := by
            rcases hpy : p y with _ | _
            · exact absurd hpy hc
            · rfl
          have : y ∈ xs.filter p := List.mem_filter.mpr ⟨hy, hpy⟩
          rw [List.length_eq_zero.mp ‹(xs.filter p).length = 0›] at this
          cases this
        rw [show updateFirst p f (x :: xs)
            = if p x = true then f x :: xs else x :: updateFirst p f xs
            from rfl, if_pos hx, List.map_cons, if_pos hx]
        rw [List.map_congr_left (fun y hy => if_neg (by simp [htail y hy]))]
        simp

/-- Looking a field up through a key-preserving per-binding map. -/
theorem getField_map_of_keys (t : Doc) (g : String × BVal → String × BVal)
    (hg : ∀ q, (g q).1 = q.1) (k : String) :
    Doc.getField (t.map g) k
      = Option.map (fun p => (g p).2)
          (t.find? (fun q => q.1 = k)) := by
  unfold Doc.getField
  rw [List.find?_map]
  have hcomp : ((fun q : String × BVal => decide (q.1 = k)) ∘ g)
      = (fun q : String × BVal => decide (q.1 = k)) := by
    funext q
    simp [Function.comp, hg q]
  rw [hcomp]
  rcases hf : t.find? (fun q : String × BVal => decide (q.1 = k)) with _ | p
  · rfl
  · rfl

/-- The per-binding function of `pullFromUsers` preserves keys. -/
theorem pull_fn_keys (m : String) :
    ∀ q : String × BVal,
      ((if q.1 = "users" then
          match q.2 with
          | .arr ms => ("users", BVal.arr (ms.filter (fun x => x ≠ m)))
          | v => ("users", v)
        else q) : String × BVal).1 = q.1 := by
  intro q
  by_cases hq : q.1 = "users"
  · rw [if_pos hq]
    cases q.2 <;> simp [hq]
  · rw [if_neg hq]

/-- A `$pull` on `users` leaves every other field unchanged. -/
theorem pull_getField_ne (t : Doc) (m k : String) (hk : k ≠ "users") :
    (pullFromUsers t m).getField k = t.getField k := by
  unfold pullFromUsers
  rw [getField_map_of_keys t _ (pull_fn_keys m) k]
  unfold Doc.getField
  rcases hf : t.find? (fun q : String × BVal => decide (q.1 = k)) with _ | p
  · rfl
  · have hp : p.1 = k := by simpa using List.find?_some hf
    show some ((if p.1 = "users" then
        match p.2 with
        | .arr ms => ("users", BVal.arr (ms.filter (fun x => x ≠ m)))
        | v => ("users", v)
      else p).2) = some p.2
    rw [if_neg (by rw [hp]; exact hk)]

/-- A `$pull` on an array-valued `users` field filters the value out. -/
theorem pull_getField_users (t : Doc) (m : String) (ms : List String)
    (h : t.getField "users" = some (.arr ms)) :
    (pullFromUsers t m).getField "users"
      = some (.arr (ms.filter (fun x => x ≠ m))) := by
  unfold pullFromUsers
  rw [getField_map_of_keys t _ (pull_fn_keys m) "users"]
  unfold Doc.getField at h
  rcases hf : t.find? (fun q : String × BVal => decide (q.1 = "users"))
    with _ | p
  · rw [hf] at h; cases h
  · rw [hf] at h
    have hp1 : p.1 = "users" := by simpa using List.find?_some hf
    have hp2 : p.2 = .arr ms := by
      simpa using h
    simp [hp1, hp2]

/-! ## Claim theorems -/

/-- C1 (counterexample): with the environment configuring
`ADMIN_ID = "root"`, a find by the configured admin sentinel `"root"` IS
narrowed by the visibility filter — it returns nothing on a store holding
one chat owned by `alice`, while the same find without an actor returns
that chat.  The source compares the actor against the literal string
`"admin"`, not against the configured `ADMIN_ID`. -/
theorem c1_configured_admin_is_filtered :
    ADMIN_ID (some "root") = "root" ∧
    findDocuments stOneChat .chats Query.empty
      (some (ADMIN_ID (some "root"))) 100 0 = .ok [] ∧
    findDocuments stOneChat .chats Query.empty none 100 0
      = .ok [[("_id", .s "c1"), ("user_id", .s "alice")]] := by decide

/-- C1 (amended): when the configured admin sentinel equals its default
value `"admin"` — the actor id the source hard-codes — a find performed by
it is never narrowed: on every collection and base query it coincides with
the unrestricted find. -/
theorem c1_admin_bypasses_filtering (env : Option String) (st : Store)
    (c : Coll) (q : Query) (limit skip : Nat)
    (h : ADMIN_ID env = "admin") :
    findDocuments st c q (some (ADMIN_ID env)) limit skip
      = rawFind st c q limit skip := by
  rw [h]; rfl

/-- Witness for `c1_admin_bypasses_filtering` at the default (unset)
environment and a concrete store. -/
theorem c1_admin_bypasses_filtering_witness :
    ADMIN_ID none = "admin" ∧
    findDocuments stOneChat .chats Query.empty (some (ADMIN_ID none)) 100 0
      = rawFind stOneChat .chats Query.empty 100 0 :=
  ⟨by decide,
   c1_admin_bypasses_filtering none stOneChat .chats Query.empty 100 0
     (by decide)⟩

/-- C3 (counterexample): with the default `limit = 100` of
`find_documents`, a chat can satisfy the visibility predicate and still
not appear in `find("chats", {}, actor_id=a)`: on a store of 101 chats all
owned by `alice`, the 101st visible chat is cut off by the limit, so the
"appears iff visible" equivalence fails as stated. -/
theorem c3_visible_chat_beyond_limit :
    lastChat ∈ stManyChats.chats ∧
    chatVisibleSpec stManyChats "alice" lastChat = true ∧
    findDocuments stManyChats .chats Query.empty (some "alice") 100 0
      = .ok (stManyChats.chats.take 100) ∧
    lastChat ∉ stManyChats.chats.take 100 := by decide

/-- C3 (amended): for a non-admin actor over schema-shaped chats and
teams on a healthy store, provided at most `limit` (default 100) chats are
visible to the actor, a chat appears in
`find("chats", {}, actor_id=a)` iff the actor owns it, is in its
`access_users`, or its `team_id` is among `teams_for(a)` — the predicate
`chatVisibleSpec` built from the claim wording. -/
theorem c3_chats_find_iff_visible (st : Store) (a : String)
    (ha1 : a ≠ "") (ha2 : a ≠ "admin")
    (hokC : st.failedReads.contains "chats" = false)
    (hokT : st.failedReads.contains "teams" = false)
    (hwfC : ∀ c ∈ st.chats, WFChat c = true)
    (hwfT : ∀ t ∈ st.teams, WFTeam t = true)
    (hlen : (st.chats.filter (fun c => chatVisibleSpec st a c)).length
      ≤ 100) :
    ∃ res, findDocuments st .chats Query.empty (some a) 100 0 = .ok res ∧
      ∀ c ∈ st.chats, (c ∈ res ↔ chatVisibleSpec st a c = true) := by
  have hguard : (a ≠ "" && a ≠ "admin") = true := by simp [ha1, ha2]
  have heff : effectiveQuery st .chats Query.empty (some a)
      = augmentQuery st .chats Query.empty a := by
    rw [show effectiveQuery st .chats Query.empty (some a)
        = if a ≠ "" && a ≠ "admin"
          then augmentQuery st .chats Query.empty a else Query.empty
        from rfl, if_pos hguard]
  have hfilter : st.chats.filter
        (matchQuery (effectiveQuery st .chats Query.empty (some a)))
      = st.chats.filter (fun c => chatVisibleSpec st a c) := by
    rw [heff]
    exact List.filter_congr
      (fun c hc => chat_match_eq_visible st a c (hwfC c hc) hokT hwfT)
  refine ⟨st.chats.filter (fun c => chatVisibleSpec st a c), ?_, ?_⟩
  · rw [show findDocuments st .chats Query.empty (some a) 100 0
        = match st.read .chats with
          | .error e => .error e
          | .ok docs => .ok (((docs.filter
              (matchQuery (effectiveQuery st .chats Query.empty
                (some a)))).drop 0).take 100)
        from rfl]
    rw [show st.read .chats = if st.failedReads.contains "chats"
        then .error "read failed" else .ok st.chats from rfl, hokC]
    simp only [if_neg Bool.false_ne_true]
    rw [hfilter, List.drop_zero, List.take_of_length_le hlen]
  · intro c hc
    rw [List.mem_filter]
    constructor
    · exact fun h => h.2
    · exact fun h => ⟨hc, h⟩

/-- Witness for `c3_chats_find_iff_visible` on a two-chat store: `alice`
sees exactly her own chat. -/
theorem c3_chats_find_iff_visible_witness :
    (("alice" : String) ≠ "" ∧ ("alice" : String) ≠ "admin" ∧
     stTwoChats.failedReads.contains "chats" = false ∧
     stTwoChats.failedReads.contains "teams" = false ∧
     (∀ c ∈ stTwoChats.chats, WFChat c = true) ∧
     (∀ t ∈ stTwoChats.teams, WFTeam t = true) ∧
     (stTwoChats.chats.filter
       (fun c => chatVisibleSpec stTwoChats "alice" c)).length ≤ 100) ∧
    ∃ res, findDocuments stTwoChats .chats Query.empty (some "alice") 100 0
        = .ok res ∧
      ∀ c ∈ stTwoChats.chats,
        (c ∈ res ↔ chatVisibleSpec stTwoChats "alice" c = true) :=
  ⟨⟨by decide, by decide, by decide, by decide, by decide, by decide,
    by decide⟩,
   c3_chats_find_iff_visible stTwoChats "alice" (by decide) (by decide)
     (by decide) (by decide) (by decide) (by decide) (by decide)⟩

/-- C4 (counterexample): re-registering with an explicitly supplied EMPTY
capabilities list does not store it — Python `or` treats `[]` as falsy, so
the prior stored value survives.  Registering `(u, n, gemini)` at `1.0.0`
with capabilities `["x"]` and again at `1.0.1` with capabilities `[]`
leaves `["x"]` stored, not the latest call's supplied value `[]`. -/
theorem c4_supplied_empty_capabilities_ignored :
    ∃ st1 st2,
      registerAgent [] 1 0 "u" "n" "gemini" "1.0.0" [] "m" "s" "c" none
        (some ["x"]) none = .ok ("1", st1) ∧
      registerAgent st1 2 1 "u" "n" "gemini" "1.0.1" [] "m" "s" "c" none
        (some []) none = .ok ("1", st2) ∧
      st2.map (fun a => a.capabilities) = [["x"]] ∧
      (["x"] : List String) ≠ [] := by
  exact ⟨_, _, rfl, rfl, by decide, by decide⟩

/-- C4 (amended): registering the same (actor, name, type) key twice with
valid, distinct versions, starting from a store with no agent under that
key, leaves exactly one stored agent document for the key; its version is
the latest call's version, and its capabilities are the latest call's
capabilities if the caller supplied a non-empty list, else the value
stored by the first call (omitted and empty both preserve). -/
theorem c4_register_twice_upserts (ags0 : List AgentDoc) (f1 f2 : Nat)
    (t1 t2 : Int) (u n ty v1 v2 : String)
    (cfg1 cfg2 : List (String × JVal))
    (sm1 sm2 sr1 sr2 cm1 cm2 : String) (dd1 dd2 : Option String)
    (caps1 caps2 : Option (List String))
    (md1 md2 : Option (List (String × JVal)))
    (hty : ty ∈ VALID_AGENT_TYPES)
    (hv1 : isSemVer v1 = true) (hv2 : isSemVer v2 = true)
    (hne : v1 ≠ v2)
    (hkey : ∀ a ∈ ags0, agentKeyMatch u n ty a = false)
    (hoid : ∀ a ∈ ags0, (a.oid == f1) = false) :
    ∃ ags1 ags2,
      registerAgent ags0 f1 t1 u n ty v1 cfg1 sm1 sr1 cm1 dd1 caps1 md1
        = .ok (toString f1, ags1) ∧
      registerAgent ags1 f2 t2 u n ty v2 cfg2 sm2 sr2 cm2 dd2 caps2 md2
        = .ok (toString f1, ags2) ∧
      (ags2.filter (agentKeyMatch u n ty)).length = 1 ∧
      ∀ a ∈ ags2, agentKeyMatch u n ty a = true →
        a.version = v2 ∧
        a.capabilities = optListOr caps2 (optListOr caps1 []) := by
  have hfind0 : ags0.find? (agentKeyMatch u n ty) = none :=
    List.find?_eq_none.mpr (fun a ha => by simp [hkey a ha])
  set D1 : AgentDoc := insertedAgent f1 t1 u n ty v1
    (dictMerge (agentDefaultConfig ty) cfg1) sm1 sr1 cm1 dd1 caps1 md1
    with hD1
  have hkeyD1 : agentKeyMatch u n ty D1 = true := by
    simp [agentKeyMatch, hD1, insertedAgent]
  have hcall1 := registerAgent_insert_eq ags0 f1 t1 u n ty v1 cfg1 sm1 sr1
    cm1 dd1 caps1 md1 hty hv1 hfind0
  have hfind1 : (ags0 ++ [D1]).find? (agentKeyMatch u n ty) = some D1 := by
    rw [find?_append_none _ _ _ hfind0, List.find?_cons, hkeyD1]
  set U : AgentDoc := updatedAgent D1 t2 v2
    (dictMerge (agentDefaultConfig ty) cfg2) sm2 sr2 cm2 dd2 caps2 md2
    with hU
  have hUne : U ≠ D1 := by
    intro hEq
    apply hne
    have : U.version = D1.version := by rw [hEq]
    rw [hU, hD1] at this
    simp [updatedAgent, insertedAgent] at this
    exact this.symm
  have hcall2 := registerAgent_update_eq (ags0 ++ [D1]) f2 t2 u n ty v2
    cfg2 sm2 sr2 cm2 dd2 caps2 md2 D1 hty hv2 hfind1 hUne
  have hD1oid : D1.oid = f1 := by simp [hD1, insertedAgent]
  have hupd : updateFirst (fun a => a.oid == D1.oid) (fun _ => U)
      (ags0 ++ [D1]) = ags0 ++ [U] := by
    rw [updateFirst_append_left _ _ ags0 [D1]
      (fun a ha => by rw [hD1oid]; exact hoid a ha)]
    rw [show updateFirst (fun a => a.oid == D1.oid) (fun _ => U) [D1]
        = if (D1.oid == D1.oid) = true then U :: [] else
            D1 :: updateFirst (fun a => a.oid == D1.oid) (fun _ => U) []
        from rfl]
    rw [if_pos (by simp)]
  have hkeyU : agentKeyMatch u n ty U = true := by
    simp [agentKeyMatch, hU, updatedAgent, hD1, insertedAgent]
  refine ⟨ags0 ++ [D1], ags0 ++ [U], hcall1, ?_, ?_, ?_⟩
  · rw [hcall2, hupd, hD1oid]
  · rw [List.filter_append,
      List.filter_eq_nil_iff.mpr (fun a ha => by simp [hkey a ha]),
      List.nil_append]
    simp [hkeyU]
  · intro a ha hka
    rcases List.mem_append.mp ha with hin | hin
    · rw [hkey a hin] at hka; cases hka
    · have : a = U := by simpa using hin
      subst this
      constructor
      · simp [hU, updatedAgent]
      · simp [hU, updatedAgent, hD1, insertedAgent]

/-- Witness for `c4_register_twice_upserts`: registering `(u, n, gemini)`
at version `1.0.0` then `1.0.1` on an empty store. -/
theorem c4_register_twice_upserts_witness :
    (("gemini" : String) ∈ VALID_AGENT_TYPES ∧ isSemVer "1.0.0" = true ∧
     isSemVer "1.0.1" = true ∧ ("1.0.0" : String) ≠ "1.0.1" ∧
     (∀ a ∈ ([] : List AgentDoc), agentKeyMatch "u" "n" "gemini" a = false) ∧
     (∀ a ∈ ([] : List AgentDoc), (a.oid == 1) = false)) ∧
    (∃ ags1 ags2,
      registerAgent [] 1 0 "u" "n" "gemini" "1.0.0" [] "m" "s" "c" none
          (some ["x"]) none = .ok (toString 1, ags1) ∧
      registerAgent ags1 2 5 "u" "n" "gemini" "1.0.1" [] "m" "s" "c" none
          none none = .ok (toString 1, ags2) ∧
      (ags2.filter (agentKeyMatch "u" "n" "gemini")).length = 1 ∧
      ∀ a ∈ ags2, agentKeyMatch "u" "n" "gemini" a = true →
        a.version = "1.0.1" ∧
        a.capabilities = optListOr none (optListOr (some ["x"]) [])) :=
  ⟨⟨by decide, by decide, by decide, by decide,
    fun a ha => absurd ha (List.not_mem_nil a),
    fun a ha => absurd ha (List.not_mem_nil a)⟩,
   c4_register_twice_upserts [] 1 2 0 5 "u" "n" "gemini" "1.0.0" "1.0.1"
     [] [] "m" "m" "s" "s" "c" "c" none none (some ["x"]) none none none
     (by decide) (by decide) (by decide) (by decide)
     (fun a ha => absurd ha (List.not_mem_nil a))
     (fun a ha => absurd ha (List.not_mem_nil a))⟩

/-- C5: registering with a type outside the registration-time enum, or
with a version not matching the semantic-version pattern, fails with a
`ValidationError`; both validations precede every store operation in
`registerAgent`, so no document is written and the store is unchanged. -/
theorem c5_validation_rejects (agents : List AgentDoc) (freshId : Nat)
    (now : Int) (user_id name agent_type version : String)
    (config : List (String × JVal)) (system_message src command : String)
    (description : Option String) (capabilities : Option (List String))
    (metadata : Option (List (String × JVal)))
    (h : agent_type ∉ VALID_AGENT_TYPES ∨ isSemVer version = false) :
    ∃ msg, registerAgent agents freshId now user_id name agent_type version
        config system_message src command description capabilities metadata
      = .error (.validationError msg) := by
  by_cases hty : agent_type ∈ VALID_AGENT_TYPES
  · rcases h with h | h
    · exact absurd hty h
    · exact ⟨"Version must be in semantic versioning format (e.g. 1.0.0)",
        by simp [registerAgent, hty, h]⟩
  · exact ⟨"Invalid agent type", by simp [registerAgent, hty]⟩

/-- Witness for `c5_validation_rejects`: the unknown type
`"unknown_type"` is rejected (and so is the malformed version `"1.0"`). -/
theorem c5_validation_rejects_witness :
    ("unknown_type" ∉ VALID_AGENT_TYPES ∨ isSemVer "1.0" = false) ∧
    ∃ msg, registerAgent [] 1 0 "u" "n" "unknown_type" "1.0" [] "m" "s" "c"
        none none none = .error (.validationError msg) :=
  ⟨Or.inl (by decide),
   c5_validation_rejects [] 1 0 "u" "n" "unknown_type" "1.0" [] "m" "s" "c"
     none none none (Or.inl (by decide))⟩

/-- C8: the member-removal route protects the owner and removes members.
(a) Removing the team owner always fails (with 403 for a non-owner,
non-admin caller, else 400 "Cannot remove team owner"), leaving the store
untouched, so the owner remains a member.  (b) Removing a non-owner member
by the owner or by the literal `"admin"` actor succeeds, and afterwards
the removed member no longer belongs to that team in `_get_user_teams`
results. -/
theorem c8_owner_protected_in_member_removal (st : Store)
    (tid uid ow : String) (team : Doc)
    (hok : st.failedReads.contains "teams" = false)
    (hfind : st.teams.find?
        (fun t => t.getField "_id" == some (.s tid)) = some team)
    (howner : team.getField "owner_id" = some (.s ow)) :
    (∃ e, removeTeamMember st tid ow uid = .error e) ∧
    (∀ m ms, (uid = "admin" ∨ uid = ow) → m ≠ ow →
      team.getField "users" = some (.arr ms) → m ∈ ms →
      (st.teams.filter
        (fun t => t.getField "_id" == some (.s tid))).length ≤ 1 →
      ∃ st2, removeTeamMember st tid m uid = .ok st2 ∧
        tid ∉ getUserTeams st2 m) := by
  have hread : st.read .teams = .ok st.teams := by
    rw [show st.read .teams = if st.failedReads.contains "teams"
        then .error "read failed" else .ok st.teams from rfl, hok]
    rfl
  constructor
  · simp only [removeTeamMember, hread, hfind, howner]
    split
    · exact ⟨_, rfl⟩
    · rw [if_pos (by simp)]
      exact ⟨_, rfl⟩
  · intro m ms hu hmne husers hmem huniq
    have hcond1 : (uid != "admin" && (BVal.s uid != BVal.s ow)) = false := by
      rcases hu with hu | hu
      · subst hu; simp
      · subst hu; simp
    have hcond2 : (BVal.s m == BVal.s ow) = false := by
      have : BVal.s m ≠ BVal.s ow := by
        intro hc; exact hmne (by cases hc; rfl)
      simp [this]
    have hcontains : ms.contains m = true := by simpa using hmem
    refine ⟨setColl st .teams (updateFirst
        (fun t => t.getField "_id" == some (.s tid))
        (fun t => pullFromUsers t m) st.teams), ?_, ?_⟩
    · simp only [removeTeamMember, hread, hfind, howner, hcond1, hcond2,
        husers, hcontains, Bool.false_eq_true, if_false, if_true]
    · set p : Doc → Bool :=
        fun t => t.getField "_id" == some (.s tid) with hp
      have hteam_mem : team ∈ st.teams := List.mem_of_find?_eq_some hfind
      have hpteam : p team = true := List.find?_some hfind
      have huniq2 : ∀ t ∈ st.teams, p t = true → t = team := by
        intro t ht hpt
        have h1 : t ∈ st.teams.filter p := List.mem_filter.mpr ⟨ht, hpt⟩
        have h2 : team ∈ st.teams.filter p :=
          List.mem_filter.mpr ⟨hteam_mem, hpteam⟩
        rcases hfl : st.teams.filter p with _ | ⟨x, xs⟩
        · rw [hfl] at h1; cases h1
        · rcases xs with _ | ⟨y, ys⟩
          · rw [hfl] at h1 h2
            have hx1 : t = x := by simpa using h1
            have hx2 : team = x := by simpa using h2
            rw [hx1, hx2]
          · rw [hfl] at huniq
            simp [List.length_cons] at huniq
      have hmap : updateFirst p (fun t => pullFromUsers t m) st.teams
          = st.teams.map (fun t => if p t then pullFromUsers t m else t) :=
        updateFirst_eq_map p _ st.teams huniq
      have hread2 : (setColl st .teams (updateFirst p
          (fun t => pullFromUsers t m) st.teams)).read .teams
          = .ok (updateFirst p (fun t => pullFromUsers t m) st.teams) := by
        rw [show (setColl st .teams (updateFirst p
            (fun t => pullFromUsers t m) st.teams)).read .teams
          = if st.failedReads.contains "teams" then .error "read failed"
            else .ok (updateFirst p (fun t => pullFromUsers t m) st.teams)
          from rfl, hok]
        rfl
      intro hbad
      unfold getUserTeams at hbad
      rw [hread2, hmap] at hbad
      rcases List.mem_filterMap.mp hbad with ⟨t, htf, hproj⟩
      rcases List.mem_filter.mp htf with ⟨htmem, hq⟩
      rcases List.mem_map.mp htmem with ⟨y, hy, hgy⟩
      have hproj2 : (match t.getField "_id" with
          | some (BVal.s i) => some i
          | _ => none) = some tid := hproj
      have hid : t.getField "_id" = some (.s tid) := by
        rcases hgf : t.getField "_id" with _ | v
        · rw [hgf] at hproj2; cases hproj2
        · cases v
          case s i =>
            rw [hgf] at hproj2
            simp only [Option.some.injEq] at hproj2
            rw [hproj2]
          case arr => rw [hgf] at hproj2; cases hproj2
          case int => rw [hgf] at hproj2; cases hproj2
      have hpt : p t = true := by rw [hp]; simp [hid]
      by_cases hpy : p y = true
      · have hyteam : y = team := huniq2 y hy hpy
        rw [hyteam] at hgy hpy
        rw [if_pos hpy] at hgy
        rw [← hgy] at hq
        have hownerT : (pullFromUsers team m).getField "owner_id"
            = some (.s ow) := by
          rw [pull_getField_ne team m "owner_id" (by decide), howner]
        have husersT : (pullFromUsers team m).getField "users"
            = some (.arr (ms.filter (fun x => x ≠ m))) :=
          pull_getField_users team m ms husers
        have hwft : WFTeam (pullFromUsers team m) = true := by
          unfold WFTeam fieldIsStr fieldIsArr
          rw [hownerT, husersT]
          rfl
        rw [team_match_eq_spec m (pullFromUsers team m) hwft] at hq
        rw [hownerT, husersT] at hq
        have how_ne : BVal.s ow ≠ BVal.s m := by
          intro hc
          exact hmne (BVal.s.inj hc).symm
        simp [how_ne, List.mem_filter] at hq
      · rw [if_neg hpy] at hgy
        rw [← hgy] at hpt
        exact hpy hpt

/-- Witness for `c8_owner_protected_in_member_removal` on a one-team
store: removing owner `alice` fails; owner `alice` removing member `bob`
succeeds and `bob` loses the team. -/
theorem c8_owner_protected_in_member_removal_witness :
    (stTeamsOk.failedReads.contains "teams" = false ∧
     stTeamsOk.teams.find? (fun t => t.getField "_id" == some (.s "t1"))
       = some [("_id", .s "t1"), ("owner_id", .s "alice"),
               ("users", .arr ["bob"])] ∧
     Doc.getField [("_id", .s "t1"), ("owner_id", .s "alice"),
       ("users", .arr ["bob"])] "owner_id" = some (.s "alice")) ∧
    ((∃ e, removeTeamMember stTeamsOk "t1" "alice" "alice" = .error e) ∧
     (∀ m ms, ("alice" = "admin" ∨ "alice" = "alice") → m ≠ "alice" →
      Doc.getField [("_id", .s "t1"), ("owner_id", .s "alice"),
        ("users", .arr ["bob"])] "users" = some (.arr ms) → m ∈ ms →
      (stTeamsOk.teams.filter
        (fun t => t.getField "_id" == some (.s "t1"))).length ≤ 1 →
      ∃ st2, removeTeamMember stTeamsOk "t1" m "alice" = .ok st2 ∧
        "t1" ∉ getUserTeams st2 m)) :=
  ⟨⟨by decide, by decide, by decide⟩,
   c8_owner_protected_in_member_removal stTeamsOk "t1" "alice" "alice"
     [("_id", .s "t1"), ("owner_id", .s "alice"), ("users", .arr ["bob"])]
     (by decide) (by decide) (by decide)⟩

/-- C9: on every path of `registerAgent`, a caller-supplied empty
capabilities list or empty metadata dict is indistinguishable from
omitting the argument (Python `or` treats both as falsy), so re-registration
cannot clear these fields to empty. -/
theorem c9_empty_equals_omitted (agents : List AgentDoc) (freshId : Nat)
    (now : Int) (user_id name agent_type version : String)
    (config : List (String × JVal)) (system_message src command : String)
    (description : Option String) :
    registerAgent agents freshId now user_id name agent_type version config
        system_message src command description (some []) (some []) =
    registerAgent agents freshId now user_id name agent_type version config
        system_message src command description none none := rfl

/-- C2 (counterexample): combining the access predicate with the base
query is NOT a logical AND for every base query.  `find_documents` writes
the access predicate into the `$or` entry of the query dict, overwriting a
caller-supplied `$or`: with base query `{"$or": [{"user_id": "bob"}]}` and
actor `alice`, the filtered find returns the chat owned by `alice`
although the base query alone selects nothing — the augmentation widened
the result set. -/
theorem c2_or_base_query_widened :
    findDocuments stOneChatB .chats qOrBob (some "alice") 100 0
      = .ok [[("_id", .s "c1"), ("user_id", .s "alice")]] ∧
    findDocuments stOneChatB .chats qOrBob none 100 0 = .ok [] := by
  decide

/-- C2 (amended): for base queries carrying no entry that the augmentation
overwrites (no `$or` for chats/workflows/agents, no `chat_id` for
messages/sessions), the access predicate is a logical AND: every document
selected by the effective query of the filtered find is selected by the
base query alone. -/
theorem c2_access_filter_narrows (st : Store) (c : Coll) (q : Query)
    (u : String) (d : Doc) (h : noOverwrittenKey c q = true)
    (hd : d ∈ findResultSet st c q (some u)) :
    d ∈ findResultSet st c q none := by
  unfold findResultSet at hd ⊢
  rw [List.mem_filter] at hd ⊢
  refine ⟨hd.1, ?_⟩
  have hm := hd.2
  show matchQuery q d = true
  rw [show effectiveQuery st c q (some u)
      = if u ≠ "" && u ≠ "admin" then augmentQuery st c q u else q
      from rfl] at hm
  split at hm
  case isFalse => exact hm
  case isTrue =>
    cases c
    case users => exact hm
    case teams => exact hm
    case chats =>
      have ho : q.orq = none := by simpa [noOverwrittenKey] using h
      unfold matchQuery augmentQuery at hm
      unfold matchQuery
      rw [ho]
      simp only [Bool.and_eq_true] at hm
      simp [hm.1]
    case workflows =>
      have ho : q.orq = none := by simpa [noOverwrittenKey] using h
      unfold matchQuery augmentQuery at hm
      unfold matchQuery
      rw [ho]
      simp only [Bool.and_eq_true] at hm
      simp [hm.1]
    case agents =>
      have ho : q.orq = none := by simpa [noOverwrittenKey] using h
      unfold matchQuery augmentQuery at hm
      unfold matchQuery
      rw [ho]
      simp only [Bool.and_eq_true] at hm
      simp [hm.1]
    case messages =>
      have hfresh : ∀ p ∈ q.fields, p.1 ≠ "chat_id" := by
        simpa [noOverwrittenKey, List.all_eq_true] using h
      unfold matchQuery augmentQuery at hm
      unfold matchQuery
      rw [assocSet_of_fresh _ _ _ hfresh] at hm
      unfold matchFields at hm
      unfold matchFields
      rw [List.all_append] at hm
      simp only [Bool.and_eq_true] at hm
      rw [Bool.and_eq_true]
      exact ⟨hm.1.1, hm.2⟩
    case sessions =>
      have hfresh : ∀ p ∈ q.fields, p.1 ≠ "chat_id" := by
        simpa [noOverwrittenKey, List.all_eq_true] using h
      unfold matchQuery augmentQuery at hm
      unfold matchQuery
      rw [assocSet_of_fresh _ _ _ hfresh] at hm
      unfold matchFields at hm
      unfold matchFields
      rw [List.all_append] at hm
      simp only [Bool.and_eq_true] at hm
      rw [Bool.and_eq_true]
      exact ⟨hm.1.1, hm.2⟩

/-- Witness for `c2_access_filter_narrows`: a `$or`-free base query on the
one-chat store. -/
theorem c2_access_filter_narrows_witness :
    noOverwrittenKey .chats ⟨[("user_id", .ceq (.s "alice"))], none⟩ = true ∧
    [("_id", BVal.s "c1"), ("user_id", BVal.s "alice")] ∈
      findResultSet stOneChatB .chats
        ⟨[("user_id", .ceq (.s "alice"))], none⟩ (some "alice") ∧
    [("_id", BVal.s "c1"), ("user_id", BVal.s "alice")] ∈
      findResultSet stOneChatB .chats
        ⟨[("user_id", .ceq (.s "alice"))], none⟩ none :=
  ⟨by decide, by decide,
   c2_access_filter_narrows stOneChatB .chats
     ⟨[("user_id", .ceq (.s "alice"))], none⟩ "alice" _ (by decide)
     (by decide)⟩

/-- C6: `_get_user_teams` is a total function into `List String` — it
never raises to its caller.  When the underlying team-collection read
errors it returns the empty list (the actor degrades to having no
team-granted access), and on success over schema-shaped team documents it
returns exactly the ids of the teams whose `owner_id` equals the actor or
whose `users` set contains the actor. -/
theorem c6_teams_for_never_fails (st : Store) (u : String) :
    (st.failedReads.contains "teams" = true → getUserTeams st u = []) ∧
    (st.failedReads.contains "teams" = false →
      (∀ t ∈ st.teams, WFTeam t = true) →
      getUserTeams st u = teamsForSpec st u) := by
  constructor
  · intro hbad
    unfold getUserTeams
    rw [show st.read .teams = if st.failedReads.contains "teams"
        then .error "read failed" else .ok st.teams from rfl, hbad]
    rfl
  · intro hok hwf
    exact getUserTeams_eq_spec st u hok hwf

/-- Witness for `c6_teams_for_never_fails`: on the failing store the team
set degrades to empty although `alice` owns a team; on the healthy copy it
is the spec-side team set. -/
theorem c6_teams_for_never_fails_witness :
    getUserTeams stTeamsDown "alice" = [] ∧
    getUserTeams stTeamsOk "alice" = teamsForSpec stTeamsOk "alice" :=
  ⟨(c6_teams_for_never_fails stTeamsDown "alice").1 (by decide),
   (c6_teams_for_never_fails stTeamsOk "alice").2 (by decide)
     (by decide)⟩

/-- C7: on a healthy store, cleanup with a retention horizon of `days`
days deletes, from every collection, exactly the documents whose
`created_at` is strictly below `now` minus `days` days; consequently if
every document is older than the cutoff all documents are removed, and if
every document is at least as new as the cutoff none is removed. -/
theorem c7_cleanup_deletes_exactly_old (st : Store) (now : Int) (days : Nat)
    (h : st.failedReads = []) :
    ∃ st2, cleanupOldData st now days = .ok st2 ∧
      (∀ c : Coll, st2.coll c = (st.coll c).filter
        (fun d => !(matchCond d "created_at"
          (.clt (now - (days : Int) * 86400))))) ∧
      ((∀ c : Coll, ∀ d ∈ st.coll c,
          matchCond d "created_at" (.clt (now - (days : Int) * 86400))
            = true) →
        ∀ c : Coll, st2.coll c = []) ∧
      ((∀ c : Coll, ∀ d ∈ st.coll c,
          matchCond d "created_at" (.clt (now - (days : Int) * 86400))
            = false) →
        st2 = st) := by
  obtain ⟨us, cs, ss, ms, ws, ags, ts, fr⟩ := st
  change fr = [] at h
  subst h
  refine ⟨{ users := us.filter (fun d => !(matchCond d "created_at"
              (.clt (now - (days : Int) * 86400)))),
            chats := cs.filter (fun d => !(matchCond d "created_at"
              (.clt (now - (days : Int) * 86400)))),
            sessions := ss.filter (fun d => !(matchCond d "created_at"
              (.clt (now - (days : Int) * 86400)))),
            messages := ms.filter (fun d => !(matchCond d "created_at"
              (.clt (now - (days : Int) * 86400)))),
            workflows := ws.filter (fun d => !(matchCond d "created_at"
              (.clt (now - (days : Int) * 86400)))),
            agents := ags.filter (fun d => !(matchCond d "created_at"
              (.clt (now - (days : Int) * 86400)))),
            teams := ts.filter (fun d => !(matchCond d "created_at"
              (.clt (now - (days : Int) * 86400)))),
            failedReads := [] }, rfl, ?_, ?_, ?_⟩
  · intro c
    cases c <;> rfl
  · intro hall c
    cases c
    case users => exact filter_not_of_all_true _ _ (hall .users)
    case chats => exact filter_not_of_all_true _ _ (hall .chats)
    case sessions => exact filter_not_of_all_true _ _ (hall .sessions)
    case messages => exact filter_not_of_all_true _ _ (hall .messages)
    case workflows => exact filter_not_of_all_true _ _ (hall .workflows)
    case agents => exact filter_not_of_all_true _ _ (hall .agents)
    case teams => exact filter_not_of_all_true _ _ (hall .teams)
  · intro hnone
    have h1 := filter_not_of_all_false _ us (hnone .users)
    have h2 := filter_not_of_all_false _ cs (hnone .chats)
    have h3 := filter_not_of_all_false _ ss (hnone .sessions)
    have h4 := filter_not_of_all_false _ ms (hnone .messages)
    have h5 := filter_not_of_all_false _ ws (hnone .workflows)
    have h6 := filter_not_of_all_false _ ags (hnone .agents)
    have h7 := filter_not_of_all_false _ ts (hnone .teams)
    rw [Store.mk.injEq]
    exact ⟨h1, h2, h3, h4, h5, h6, h7, rfl⟩

/-- Witness for `c7_cleanup_deletes_exactly_old` on a concrete two-document
store: the old chat is deleted, the new chat survives. -/
theorem c7_cleanup_witness :
    stCleanup.failedReads = [] ∧
    ∃ st2, cleanupOldData stCleanup 86450 1 = .ok st2 ∧
      (∀ c : Coll, st2.coll c = (stCleanup.coll c).filter
        (fun d => !(matchCond d "created_at"
          (.clt (86450 - (1 : Int) * 86400))))) ∧
      ((∀ c : Coll, ∀ d ∈ stCleanup.coll c,
          matchCond d "created_at" (.clt (86450 - (1 : Int) * 86400))
            = true) →
        ∀ c : Coll, st2.coll c = []) ∧
      ((∀ c : Coll, ∀ d ∈ stCleanup.coll c,
          matchCond d "created_at" (.clt (86450 - (1 : Int) * 86400))
            = false) →
        st2 = stCleanup) :=
  ⟨rfl, c7_cleanup_deletes_exactly_old stCleanup 86450 1 rfl⟩

/-- C10: a find whose actor id is absent or empty applies no visibility
filtering on any collection: it equals the unrestricted find with the base
query alone. -/
theorem c10_missing_actor_unfiltered (st : Store) (c : Coll) (q : Query)
    (limit skip : Nat) :
    findDocuments st c q none limit skip = rawFind st c q limit skip ∧
    findDocuments st c q (some "") limit skip
      = rawFind st c q limit skip := by
  exact ⟨rfl, rfl⟩

end DataServer
